import Mathlib

/-!
Verification of the repository-synchronization routine
(`src/integrations/git/git_clone.py`) and the Slack notification client
(`src/integrations/slack/slack.py`, `src/integrations/slack.py`) against the
specification.

The embedding is shallow: the Python functions are translated into pure Lean
functions over an explicit world state (local filesystem, remote repositories,
optional recording collaborator).  Python exceptions are modelled with
`Except`; the GitPython exception classes relevant to the code are
distinguished by the `GitErr` type.  Machine behaviour of the underlying git
client is modelled at the level the source manipulates it: branch references
(local heads and `origin/`-prefixed remote-tracking refs) with commit tips,
checkout, hard reset, clone, and recursive deletion.
-/

deriving instance DecidableEq for Except

namespace CommonIntegrations

/-! ### Association-list primitives (dict / ref-store lookups) -/

def lookupA {α β : Type} [DecidableEq α] : List (α × β) → α → Option β
  | [], _ => none
  | (k, v) :: rest, a => if k = a then some v else lookupA rest a

def setAssoc {α β : Type} [DecidableEq α] : List (α × β) → α → β → List (α × β)
  | [], a, b => [(a, b)]
  | (k, v) :: rest, a, b =>
    if k = a then (a, b) :: rest else (k, v) :: setAssoc rest a b

def removeA {α β : Type} [DecidableEq α] : List (α × β) → α → List (α × β)
  | [], _ => []
  | (k, v) :: rest, a => if k = a then removeA rest a else (k, v) :: removeA rest a

/-! ### Python string helpers used by the source -/

/-- Python `s.split("/")`, character by character: splits on every `'/'`,
keeping empty segments, and always returns at least one segment. -/
def splitSlashAux : List Char → List Char → List String
  | [], acc => [String.mk acc.reverse]
  | c :: cs, acc =>
    if c = '/' then String.mk acc.reverse :: splitSlashAux cs []
    else splitSlashAux cs (c :: acc)

def pySplitSlash (s : String) : List String := splitSlashAux s.data []

/-! ### Git world model -/

/-- A remote repository: its branches (name, tip commit) and the default
branch a clone checks out. -/
structure RemoteRepo where
  branches : List (String × Nat)
  defaultBranch : String
deriving DecidableEq

/-- A local working copy: local branch heads, `origin/*` remote-tracking
refs (stored under the bare branch name), and the checked-out branch. -/
structure LocalRepo where
  heads : List (String × Nat)
  originRefs : List (String × Nat)
  headRef : String
deriving DecidableEq

/-- What the filesystem holds at a path: a directory that is not a git
repository, or a working copy. An absent entry means the path does not exist. -/
inductive PathContent where
  | nonRepo
  | repo (r : LocalRepo)
deriving DecidableEq

/-- The GitPython exceptions the source can encounter.
`Repo(path)` raises `NoSuchPathError` for a missing path and
`InvalidGitRepositoryError` for an existing non-repository path; neither is
a subclass of `GitCommandError`. `repo.heads[name]` raises `IndexError`
when the head is absent. -/
inductive GitErr where
  | invalidGitRepositoryError
  | noSuchPathError
  | gitCommandError
  | indexError
deriving DecidableEq

/-- Modelled from the spec: the recording collaborator
(`utils.replay.replay.Replay`, imported by `src/integrations/git/git_clone.py`)
is not among the sources under `src/`. Per the spec it exposes
`instance_exists`, `is_recording` and an archival call whose own failure is
logged/ignored and never surfaced. `archiveFails` says whether the archival
operation would fail internally on this run. -/
structure ReplayState where
  instanceExists : Bool
  recording : Bool
  archiveFails : Bool
  archived : List String
deriving DecidableEq

/-- The world a synchronization call runs in. -/
structure World where
  fs : List (String × PathContent)
  remotes : List (String × RemoteRepo)
  replay : ReplayState
deriving DecidableEq

/-- Observable git/filesystem actions, for stating which operations a call
performs (clone, delete, checkout, hard reset). -/
inductive Event where
  | cloned (src path : String)
  | deletedTree (path : String)
  | checkedOut (path branch : String)
  | hardReset (path target : String)
deriving DecidableEq

/-- `repo.refs`: names of all references — local heads plus
`origin/`-prefixed remote-tracking refs. -/
def refsOf (r : LocalRepo) : List String :=
  r.heads.map Prod.fst ++ r.originRefs.map (fun b => "origin/" ++ b.1)

/-- `git.Repo(path)`: open a repository, raising `NoSuchPathError` or
`InvalidGitRepositoryError` exactly as GitPython does. -/
def repoOpen (fs : List (String × PathContent)) (path : String) :
    Except GitErr LocalRepo :=
  match lookupA fs path with
  | none => .error .noSuchPathError
  | some .nonRepo => .error .invalidGitRepositoryError
  | some (.repo r) => .ok r

/-- `branch_exists` from `src/integrations/git/git_clone.py`: opens the
repository and tests `branch_name in repo.refs`; the `try` block catches
only `GitCommandError`, so the other exceptions propagate. -/
def branch_exists (fs : List (String × PathContent))
    (repo_path branch_name : String) : Except GitErr Bool :=
  match repoOpen fs repo_path with
  | .ok r => .ok (decide (branch_name ∈ refsOf r))
  | .error .gitCommandError => .ok false
  | .error e => .error e

/-- The working copy produced by `Repo.clone_from`: one local head for the
remote's default branch, remote-tracking refs for all remote branches,
default branch checked out. -/
def freshClone (re : RemoteRepo) (t : Nat) : LocalRepo :=
  { heads := [(re.defaultBranch, t)], originRefs := re.branches,
    headRef := re.defaultBranch }

/-- `Repo.clone_from(src, dest)`: fails (fatal transport error) when the
source is unreachable or has no resolvable default branch. -/
def clone_from (remotes : List (String × RemoteRepo))
    (fs : List (String × PathContent)) (src dest : String) :
    Except GitErr (List (String × PathContent)) :=
  match lookupA remotes src with
  | none => .error .gitCommandError
  | some re =>
    match lookupA re.branches re.defaultBranch with
    | none => .error .gitCommandError
    | some t => .ok (setAssoc fs dest (.repo (freshClone re t)))

/-- `repo.heads[branch].checkout()`: `repo.heads[branch]` raises
`IndexError` when the head is absent; checkout switches HEAD. -/
def checkout (r : LocalRepo) (branch : String) : Except GitErr LocalRepo :=
  match lookupA r.heads branch with
  | none => .error .indexError
  | some _ => .ok { r with headRef := branch }

/-- `repo.head.reset("origin/" + branch, index=True, working_tree=True)`:
forces the tip of the currently checked-out branch to the local
remote-tracking ref `origin/<branch>`; purely local, no fetch. Fails when
the tracking ref does not resolve. -/
def resetToOrigin (r : LocalRepo) (branch : String) : Except GitErr LocalRepo :=
  match lookupA r.originRefs branch with
  | none => .error .gitCommandError
  | some t => .ok { r with heads := setAssoc r.heads r.headRef t }

/-- Modelled from the spec: `Replay.compress_source` archives the tree at
`path`; its own failure is logged and ignored, never raised. -/
def compress_source (rs : ReplayState) (path : String) : ReplayState :=
  if rs.archiveFails then rs
  else { rs with archived := path :: rs.archived }

/-- The deterministic local path: `"/tmp/" + repo.split("/")[-1]`. -/
def tmpPath (repo : String) : String :=
  "/tmp/" ++ (pySplitSlash repo).getLastD ""

/-- The body of `git_temp_clone` up to the recording hook: everything it
does to the filesystem / git state, together with the trace of observable
actions. -/
def sync_step (fs : List (String × PathContent))
    (remotes : List (String × RemoteRepo)) (repo repo_path : String) :
    Except GitErr (List (String × PathContent) × List Event) :=
  if (lookupA fs repo_path).isSome then
    match branch_exists fs repo_path "main" with
    | .error e => .error e
    | .ok true =>
      match repoOpen fs repo_path with
      | .error e => .error e
      | .ok r =>
        match checkout r "main" with
        | .error e => .error e
        | .ok r1 =>
          match resetToOrigin r1 "main" with
          | .error e => .error e
          | .ok r2 =>
            .ok (setAssoc fs repo_path (.repo r2),
                 [.checkedOut repo_path "main", .hardReset repo_path "origin/main"])
    | .ok false =>
      match branch_exists fs repo_path "master" with
      | .error e => .error e
      | .ok true =>
        match repoOpen fs repo_path with
        | .error e => .error e
        | .ok r =>
          match checkout r "master" with
          | .error e => .error e
          | .ok r1 =>
            match resetToOrigin r1 "master" with
            | .error e => .error e
            | .ok r2 =>
              .ok (setAssoc fs repo_path (.repo r2),
                   [.checkedOut repo_path "master", .hardReset repo_path "origin/master"])
      | .ok false =>
        match clone_from remotes (removeA fs repo_path) repo repo_path with
        | .error e => .error e
        | .ok fs2 => .ok (fs2, [.deletedTree repo_path, .cloned repo repo_path])
  else
    match clone_from remotes fs repo repo_path with
    | .error e => .error e
    | .ok fs2 => .ok (fs2, [.cloned repo repo_path])

/-- `git_temp_clone` from `src/integrations/git/git_clone.py`: computes the
deterministic path, synchronizes the local state, runs the recording hook,
and returns the path (with the action trace made explicit). -/
def git_temp_clone (w : World) (repo : String) :
    Except GitErr (World × String × List Event) :=
  let repo_path := tmpPath repo
  match sync_step w.fs w.remotes repo repo_path with
  | .error e => .error e
  | .ok (fs2, evs) =>
    let rs :=
      if w.replay.instanceExists && w.replay.recording
      then compress_source w.replay repo_path
      else w.replay
    .ok ({ w with fs := fs2, replay := rs }, repo_path, evs)

/-- Tip of the currently checked-out branch of the working copy at `path`. -/
def headTip (w : World) (path : String) : Option Nat :=
  match lookupA w.fs path with
  | some (.repo r) => lookupA r.heads r.headRef
  | _ => none

/-- Tip of a branch on the remote repository identified by `src`. -/
def remoteBranchTip (w : World) (src branch : String) : Option Nat :=
  match lookupA w.remotes src with
  | some re => lookupA re.branches branch
  | none => none

/-- Returned path of a synchronization result, when it succeeded. -/
def resultPath : Except GitErr (World × String × List Event) → Option String
  | .ok (_, p, _) => some p
  | .error _ => none

/-- Resulting world of a synchronization result, when it succeeded. -/
def resultWorld : Except GitErr (World × String × List Event) → Option World
  | .ok (w, _, _) => some w
  | .error _ => none

/-! ### Slack client model

`src/integrations/slack/slack.py` and the older `src/integrations/slack.py`
wrap a `WebClient`. The client state holds the channel listing returned by
`conversations_list`, the record of messages posted and edited, whether the
API calls fail on this run, and the message identifier the server assigns. -/

/-- The exceptions the Slack code raises or catches: Python `ValueError`
and the SDK's `SlackApiError`. -/
inductive SlackErr where
  | valueError (msg : String)
  | slackApiError
deriving DecidableEq

/-- A message delivered to `chat_postMessage`. -/
structure SlackPost where
  channel : String
  text : String
  thread_ts : Option String
deriving DecidableEq

structure SlackClient where
  channels : List (String × String)
  posted : List SlackPost
  updates : List (String × String × String)
  chatUpdateOk : Bool
  postFails : Bool
  serverTs : String
deriving DecidableEq

/-- Python's leading-`#` normalization,
`if channel_name.startswith("#"): channel_name = channel_name[1:]`:
drops the first character exactly when it is `'#'`. -/
def stripHash (s : String) : String :=
  match s.data with
  | '#' :: rest => String.mk rest
  | _ => s

/-- Python `s.startswith("#")`. -/
def startsWithHash (s : String) : Bool :=
  match s.data with
  | '#' :: _ => true
  | _ => false

/-- Python truthiness test `not ts` on an optional string:
true for `None` and for the empty string. -/
def pyFalsy : Option String → Bool
  | none => true
  | some s => decide (s = "")

/-- `self.client.conversations_list()["channels"]`. -/
def conversations_list (c : SlackClient) : List (String × String) :=
  c.channels

/-- `self.client.chat_postMessage(channel=..., text=..., thread_ts=...)`:
raises `SlackApiError` when the API call fails, otherwise records the post
and returns the server-assigned timestamp. -/
def chat_postMessage (c : SlackClient) (channel text : String)
    (thread_ts : Option String) : Except SlackErr (SlackClient × String) :=
  if c.postFails then .error .slackApiError
  else .ok ({ c with posted := c.posted ++ [⟨channel, text, thread_ts⟩] }, c.serverTs)

namespace Slack
/-! The `Slack` class of `src/integrations/slack/slack.py`. -/

/-- `Slack._get_channel_id`: strips a leading `#`, walks the channel
listing, and returns the identifier of the first channel whose name
matches, else `None`. -/
def get_channel_id (c : SlackClient) (channel_name : String) : Option String :=
  let n := stripHash channel_name
  ((conversations_list c).find? (fun ch => decide (ch.1 = n))).map (fun ch => ch.2)

/-- `Slack._check_channel_exists`: `self._get_channel_id(channel_name) is not None`. -/
def check_channel_exists (c : SlackClient) (channel_name : String) : Bool :=
  (get_channel_id c channel_name).isSome

/-- `Slack.send_message`: validates the channel exists, strips a leading
`#`, posts, and returns the timestamp. -/
def send_message (c : SlackClient) (channel_name text : String) :
    SlackClient × Except SlackErr String :=
  if ¬ check_channel_exists c channel_name then
    (c, .error (.valueError "Channel does not exist"))
  else
    let n := stripHash channel_name
    match chat_postMessage c n text none with
    | .error e => (c, .error e)
    | .ok (c2, ts) => (c2, .ok ts)

/-- `Slack.send_thread_reply`: strips a leading `#`, validates the channel
exists, raises `ValueError` on a falsy `thread_ts`, then posts into the
thread. -/
def send_thread_reply (c : SlackClient) (channel_name : String)
    (thread_ts : Option String) (text : String) :
    SlackClient × Except SlackErr String :=
  let n := stripHash channel_name
  if ¬ check_channel_exists c n then
    (c, .error (.valueError "Channel does not exist"))
  else if pyFalsy thread_ts then
    (c, .error (.valueError "thread_ts is required"))
  else
    match chat_postMessage c n text thread_ts with
    | .error e => (c, .error e)
    | .ok (c2, ts) => (c2, .ok ts)

/-- `Slack.edit_message`: strips a leading `#`, validates the channel
exists and the timestamp is non-empty, resolves the channel id, and edits.
Python's truthiness test `if not channel_id:` fires both when the id is
`None` and when it is the empty string; both cases take the early
`return False` branch, which the third component of the result flags. -/
def edit_message (c : SlackClient) (channel_name message_ts new_text : String) :
    SlackClient × Except SlackErr Bool × Bool :=
  let n := stripHash channel_name
  if ¬ check_channel_exists c n then
    (c, .error (.valueError "Channel does not exist"), false)
  else if decide (message_ts = "") then
    (c, .error (.valueError "message_ts is required"), false)
  else
    match get_channel_id c n with
    | none => (c, .ok false, true)
    | some cid =>
      if decide (cid = "") then (c, .ok false, true)
      else
        ({ c with updates := c.updates ++ [(cid, message_ts, new_text)] },
         .ok c.chatUpdateOk, false)

end Slack

namespace SlackLegacy
/-! The `Slack` class of the older `src/integrations/slack.py`. -/

/-- Legacy `Slack.send_message`: strips a leading `#` and posts directly,
catching `SlackApiError` and returning `None` in that case. There is no
channel-existence check. -/
def send_message (c : SlackClient) (channel_name text : String) :
    SlackClient × Option String :=
  let n := stripHash channel_name
  match chat_postMessage c n text none with
  | .error _ => (c, none)
  | .ok (c2, ts) => (c2, some ts)

end SlackLegacy

/-- The working-copy states a successful synchronization can leave at the
local path: reset to `origin/main`, reset to `origin/master` with no `main`
head, or a fresh clone of the remote identified by `S`. -/
def SyncedRepo (remotes : List (String × RemoteRepo)) (S : String)
    (r : LocalRepo) : Prop :=
  (∃ ot, r.headRef = "main" ∧ lookupA r.heads "main" = some ot ∧
         lookupA r.originRefs "main" = some ot)
  ∨ (∃ ot, r.headRef = "master" ∧ lookupA r.heads "main" = none ∧
           lookupA r.heads "master" = some ot ∧
           lookupA r.originRefs "master" = some ot)
  ∨ (∃ re t, lookupA remotes S = some re ∧
             lookupA re.branches re.defaultBranch = some t ∧ r = freshClone re t)

/-- The world with the recorder switched to a given archival outcome. -/
def withArchiveOutcome (w : World) (b : Bool) : World :=
  { w with replay := { w.replay with archiveFails := b } }

/-! ### Concrete states used in the claim theorems -/

def replayOff : ReplayState :=
  { instanceExists := false, recording := false, archiveFails := false, archived := [] }

def replayFailingRecorder : ReplayState :=
  { instanceExists := true, recording := true, archiveFails := true, archived := [] }

def exampleRemote : RemoteRepo := { branches := [("main", 2)], defaultBranch := "main" }

/-- Local copy on `main` whose remote-tracking ref is one commit behind the
remote (`origin/main` recorded at commit 1, remote `main` now at 2). -/
def staleWorld : World :=
  { fs := [("/tmp/repo",
      .repo { heads := [("main", 1)], originRefs := [("main", 1)], headRef := "main" })]
    remotes := [("https://example.com/org/repo", exampleRemote)]
    replay := replayOff }

/-- `/tmp/x` exists but is a plain directory, not a git repository. -/
def nonRepoWorld : World :=
  { fs := [("/tmp/x", .nonRepo)]
    remotes := [("https://example.com/org/x",
      { branches := [("main", 1)], defaultBranch := "main" })]
    replay := replayOff }

/-- Local copy with only a `feature-x` branch reference. -/
def featureXWorld : World :=
  { fs := [("/tmp/repo",
      .repo { heads := [("feature-x", 5)], originRefs := [("feature-x", 5)],
              headRef := "feature-x" })]
    remotes := [("https://example.com/org/repo", exampleRemote)]
    replay := replayOff }

/-- Local copy with both `master` and `main` heads (listed `master` first). -/
def bothBranchesWorld : World :=
  { fs := [("/tmp/repo",
      .repo { heads := [("master", 3), ("main", 4)],
              originRefs := [("master", 7), ("main", 8)], headRef := "master" })]
    remotes := [("https://example.com/org/repo", exampleRemote)]
    replay := replayOff }

/-- Local copy with only a `master` branch. -/
def masterOnlyWorld : World :=
  { fs := [("/tmp/repo",
      .repo { heads := [("master", 3)], originRefs := [("master", 7)],
              headRef := "master" })]
    remotes := [("https://example.com/org/repo", exampleRemote)]
    replay := replayOff }

/-- No local state at all. -/
def emptyFsWorld : World :=
  { fs := []
    remotes := [("https://example.com/org/repo", exampleRemote)]
    replay := replayOff }

/-- The world `emptyFsWorld` reaches after one synchronization. -/
def clonedWorld : World :=
  { fs := [("/tmp/repo", .repo (freshClone exampleRemote 2))]
    remotes := [("https://example.com/org/repo", exampleRemote)]
    replay := replayOff }

/-- No local state, recorder active and recording, archival due to fail. -/
def recordingWorld : World :=
  { fs := []
    remotes := [("https://example.com/org/repo", exampleRemote)]
    replay := replayFailingRecorder }

def demoClient : SlackClient :=
  { channels := [("general", "C1"), ("eval-results", "C2")]
    posted := []
    updates := []
    chatUpdateOk := true
    postFails := false
    serverTs := "1700000000.000100" }

/-- A channel listing that maps `general` to the empty-string identifier —
a non-`None` id on which Python's `if not channel_id:` still fires. -/
def emptyIdClient : SlackClient :=
  { channels := [("general", "")]
    posted := []
    updates := []
    chatUpdateOk := true
    postFails := false
    serverTs := "1700000000.000100" }

/-! ### Helper lemmas -/

theorem lookupA_setAssoc_self {α β : Type} [DecidableEq α]
    (l : List (α × β)) (a : α) (b : β) : lookupA (setAssoc l a b) a = some b := by
  induction l with
  | nil => simp [setAssoc, lookupA]
  | cons hd tl ih =>
    obtain ⟨k, v⟩ := hd
    by_cases hk : k = a
    · simp [setAssoc, hk, lookupA]
    · simp [setAssoc, hk, lookupA, ih]

theorem lookupA_setAssoc_ne {α β : Type} [DecidableEq α]
    (l : List (α × β)) (a k : α) (b : β) (h : k ≠ a) :
    lookupA (setAssoc l a b) k = lookupA l k := by
  induction l with
  | nil => simp [setAssoc, lookupA, h, Ne.symm h]
  | cons hd tl ih =>
    obtain ⟨k', v'⟩ := hd
    by_cases hk : k' = a
    · subst hk
      simp [setAssoc, lookupA, h, Ne.symm h]
    · simp [setAssoc, hk, lookupA, ih]

theorem mem_map_fst_iff_lookupA {α β : Type} [DecidableEq α]
    (l : List (α × β)) (a : α) : a ∈ l.map Prod.fst ↔ (lookupA l a).isSome := by
  induction l with
  | nil => simp [lookupA]
  | cons hd tl ih =>
    obtain ⟨k, v⟩ := hd
    by_cases hk : k = a
    · subst hk
      simp [lookupA]
    · simp [lookupA, hk, Ne.symm hk, ih]


theorem ne_origin_append (name b : String) (h : name.length < 7) :
    name ≠ "origin/" ++ b := by
  intro he
  have hl := congrArg String.length he
  rw [String.length_append] at hl
  have h7 : ("origin/" : String).length = 7 := rfl
  omega

theorem mem_refsOf_short (r : LocalRepo) (name : String) (h : name.length < 7) :
    name ∈ refsOf r ↔ (lookupA r.heads name).isSome := by
  unfold refsOf
  rw [List.mem_append]
  constructor
  · rintro (hm | hm)
    · exact (mem_map_fst_iff_lookupA r.heads name).1 hm
    · exfalso
      obtain ⟨b, _, hb⟩ := List.mem_map.1 hm
      exact ne_origin_append name b.1 h hb.symm
  · intro hm
    exact Or.inl ((mem_map_fst_iff_lookupA r.heads name).2 hm)

theorem branch_exists_of_repo (fs : List (String × PathContent)) (p name : String)
    (r : LocalRepo) (hfs : lookupA fs p = some (.repo r)) :
    branch_exists fs p name = .ok (decide (name ∈ refsOf r)) := by
  simp [branch_exists, repoOpen, hfs]

theorem branch_exists_true_of_head (fs : List (String × PathContent)) (p name : String)
    (r : LocalRepo) (hfs : lookupA fs p = some (.repo r))
    (h : (lookupA r.heads name).isSome) (hlen : name.length < 7) :
    branch_exists fs p name = .ok true := by
  rw [branch_exists_of_repo fs p name r hfs]
  have hm : name ∈ refsOf r := (mem_refsOf_short r name hlen).2 h
  simp [hm]

theorem branch_exists_false_of_head (fs : List (String × PathContent)) (p name : String)
    (r : LocalRepo) (hfs : lookupA fs p = some (.repo r))
    (h : lookupA r.heads name = none) (hlen : name.length < 7) :
    branch_exists fs p name = .ok false := by
  rw [branch_exists_of_repo fs p name r hfs]
  have hm : ¬ name ∈ refsOf r := by
    rw [mem_refsOf_short r name hlen]
    simp [h]
  simp [hm]

theorem sync_step_main (fs : List (String × PathContent))
    (remotes : List (String × RemoteRepo)) (S p : String) (r : LocalRepo)
    (h0 ot : Nat) (hfs : lookupA fs p = some (.repo r))
    (hm : lookupA r.heads "main" = some h0)
    (ho : lookupA r.originRefs "main" = some ot) :
    sync_step fs remotes S p =
      .ok (setAssoc fs p (.repo { heads := setAssoc r.heads "main" ot,
                                  originRefs := r.originRefs, headRef := "main" }),
           [.checkedOut p "main", .hardReset p "origin/main"]) := by
  have hbe : branch_exists fs p "main" = .ok true :=
    branch_exists_true_of_head fs p "main" r hfs (by simp [hm]) (by decide)
  simp [sync_step, hfs, hbe, repoOpen, checkout, hm, resetToOrigin, ho]

theorem sync_step_master (fs : List (String × PathContent))
    (remotes : List (String × RemoteRepo)) (S p : String) (r : LocalRepo)
    (h0 ot : Nat) (hfs : lookupA fs p = some (.repo r))
    (hnm : lookupA r.heads "main" = none)
    (hm : lookupA r.heads "master" = some h0)
    (ho : lookupA r.originRefs "master" = some ot) :
    sync_step fs remotes S p =
      .ok (setAssoc fs p (.repo { heads := setAssoc r.heads "master" ot,
                                  originRefs := r.originRefs, headRef := "master" }),
           [.checkedOut p "master", .hardReset p "origin/master"]) := by
  have hbe1 : branch_exists fs p "main" = .ok false :=
    branch_exists_false_of_head fs p "main" r hfs hnm (by decide)
  have hbe2 : branch_exists fs p "master" = .ok true :=
    branch_exists_true_of_head fs p "master" r hfs (by simp [hm]) (by decide)
  simp [sync_step, hfs, hbe1, hbe2, repoOpen, checkout, hm, resetToOrigin, ho]

theorem sync_step_reclone (fs : List (String × PathContent))
    (remotes : List (String × RemoteRepo)) (S p : String) (r : LocalRepo)
    (re : RemoteRepo) (t : Nat) (hfs : lookupA fs p = some (.repo r))
    (hnm : lookupA r.heads "main" = none)
    (hns : lookupA r.heads "master" = none)
    (hre : lookupA remotes S = some re)
    (ht : lookupA re.branches re.defaultBranch = some t) :
    sync_step fs remotes S p =
      .ok (setAssoc (removeA fs p) p (.repo (freshClone re t)),
           [.deletedTree p, .cloned S p]) := by
  have hbe1 : branch_exists fs p "main" = .ok false :=
    branch_exists_false_of_head fs p "main" r hfs hnm (by decide)
  have hbe2 : branch_exists fs p "master" = .ok false :=
    branch_exists_false_of_head fs p "master" r hfs hns (by decide)
  simp [sync_step, hfs, hbe1, hbe2, clone_from, hre, ht]

theorem sync_step_fresh (fs : List (String × PathContent))
    (remotes : List (String × RemoteRepo)) (S p : String)
    (re : RemoteRepo) (t : Nat) (hfs : lookupA fs p = none)
    (hre : lookupA remotes S = some re)
    (ht : lookupA re.branches re.defaultBranch = some t) :
    sync_step fs remotes S p =
      .ok (setAssoc fs p (.repo (freshClone re t)), [.cloned S p]) := by
  simp [sync_step, hfs, clone_from, hre, ht]

theorem git_temp_clone_of_sync (w : World) (S : String)
    (fs2 : List (String × PathContent)) (evs : List Event)
    (h : sync_step w.fs w.remotes S (tmpPath S) = .ok (fs2, evs)) :
    git_temp_clone w S =
      .ok ({ w with
             fs := fs2
             replay := if w.replay.instanceExists && w.replay.recording
                       then compress_source w.replay (tmpPath S)
                       else w.replay }, tmpPath S, evs) := by
  simp [git_temp_clone, h]

theorem repoOpen_ok_inv (fs : List (String × PathContent)) (p : String)
    (r : LocalRepo) (h : repoOpen fs p = .ok r) : lookupA fs p = some (.repo r) := by
  unfold repoOpen at h
  split at h
  · cases h
  · cases h
  next r' heq =>
    injection h with h2
    rw [heq, h2]

theorem repoOpen_ne_gitCommandError (fs : List (String × PathContent))
    (p : String) : repoOpen fs p ≠ .error .gitCommandError := by
  intro h
  unfold repoOpen at h
  split at h <;> simp at h

theorem branch_exists_ok_inv (fs : List (String × PathContent))
    (p name : String) (b : Bool) (h : branch_exists fs p name = .ok b) :
    ∃ r, lookupA fs p = some (.repo r) ∧ b = decide (name ∈ refsOf r) := by
  unfold branch_exists at h
  split at h
  next r heq =>
    injection h with h2
    exact ⟨r, repoOpen_ok_inv fs p r heq, h2.symm⟩
  next heq => exact absurd heq (repoOpen_ne_gitCommandError fs p)
  next e heq hne => cases h

theorem checkout_ok_inv (r : LocalRepo) (branch : String) (r1 : LocalRepo)
    (h : checkout r branch = .ok r1) :
    ∃ h0, lookupA r.heads branch = some h0 ∧ r1 = { r with headRef := branch } := by
  unfold checkout at h
  split at h
  · cases h
  next h0 heq =>
    injection h with h2
    exact ⟨h0, heq, h2.symm⟩

theorem resetToOrigin_ok_inv (r : LocalRepo) (branch : String) (r2 : LocalRepo)
    (h : resetToOrigin r branch = .ok r2) :
    ∃ t, lookupA r.originRefs branch = some t ∧
      r2 = { r with heads := setAssoc r.heads r.headRef t } := by
  unfold resetToOrigin at h
  split at h
  · cases h
  next t heq =>
    injection h with h2
    exact ⟨t, heq, h2.symm⟩

theorem clone_from_inv (remotes : List (String × RemoteRepo))
    (fs fs2 : List (String × PathContent)) (src dest : String)
    (h : clone_from remotes fs src dest = .ok fs2) :
    ∃ re t, lookupA remotes src = some re ∧
      lookupA re.branches re.defaultBranch = some t ∧
      fs2 = setAssoc fs dest (.repo (freshClone re t)) := by
  unfold clone_from at h
  split at h
  · cases h
  next re hre =>
    split at h
    · cases h
    next t ht =>
      injection h with h2
      exact ⟨re, t, hre, ht, h2.symm⟩

/-- Any successful synchronization step leaves a `SyncedRepo` at the path. -/
theorem sync_step_post (fs : List (String × PathContent))
    (remotes : List (String × RemoteRepo)) (S p : String)
    (fs2 : List (String × PathContent)) (evs : List Event)
    (h : sync_step fs remotes S p = .ok (fs2, evs)) :
    ∃ r1, lookupA fs2 p = some (.repo r1) ∧ SyncedRepo remotes S r1 := by
  rcases hfs : lookupA fs p with _ | pc
  · -- path absent: plain clone
    simp only [sync_step, hfs, Option.isSome_none, Bool.false_eq_true, if_false] at h
    rcases hcl : clone_from remotes fs S p with e | fs'
    · rw [hcl] at h
      cases h
    · rw [hcl] at h
      injection h with h2
      injection h2 with h3 h4
      obtain ⟨re, t, hre, ht, hshape⟩ := clone_from_inv remotes fs fs' S p hcl
      refine ⟨freshClone re t, ?_, ?_⟩
      · rw [← h3, hshape]
        exact lookupA_setAssoc_self fs p (.repo (freshClone re t))
      · exact Or.inr (Or.inr ⟨re, t, hre, ht, rfl⟩)
  · rcases pc with _ | r
    · -- path exists but is not a repository: the call raises
      simp [sync_step, hfs, branch_exists, repoOpen] at h
    · rcases hm : lookupA r.heads "main" with _ | h0
      · rcases hms : lookupA r.heads "master" with _ | h0
        · -- neither head: delete and re-clone
          have hbe1 : branch_exists fs p "main" = .ok false :=
            branch_exists_false_of_head fs p "main" r hfs hm (by decide)
          have hbe2 : branch_exists fs p "master" = .ok false :=
            branch_exists_false_of_head fs p "master" r hfs hms (by decide)
          rcases hre : lookupA remotes S with _ | re
          · simp [sync_step, hfs, hbe1, hbe2, clone_from, hre] at h
          · rcases ht : lookupA re.branches re.defaultBranch with _ | t
            · simp [sync_step, hfs, hbe1, hbe2, clone_from, hre, ht] at h
            · rw [sync_step_reclone fs remotes S p r re t hfs hm hms hre ht] at h
              injection h with h2
              injection h2 with h3 h4
              refine ⟨freshClone re t, ?_, ?_⟩
              · rw [← h3]
                exact lookupA_setAssoc_self (removeA fs p) p (.repo (freshClone re t))
              · exact Or.inr (Or.inr ⟨re, t, hre, ht, rfl⟩)
        · -- master only
          rcases ho : lookupA r.originRefs "master" with _ | ot
          · have hbe1 : branch_exists fs p "main" = .ok false :=
              branch_exists_false_of_head fs p "main" r hfs hm (by decide)
            have hbe2 : branch_exists fs p "master" = .ok true :=
              branch_exists_true_of_head fs p "master" r hfs (by simp [hms]) (by decide)
            simp [sync_step, hfs, hbe1, hbe2, repoOpen, checkout, hms, resetToOrigin, ho] at h
          · rw [sync_step_master fs remotes S p r h0 ot hfs hm hms ho] at h
            injection h with h2
            injection h2 with h3 h4
            refine ⟨{ heads := setAssoc r.heads "master" ot,
                      originRefs := r.originRefs, headRef := "master" }, ?_, ?_⟩
            · rw [← h3]
              exact lookupA_setAssoc_self fs p _
            · refine Or.inr (Or.inl ⟨ot, rfl, ?_, ?_, ho⟩)
              · rw [lookupA_setAssoc_ne r.heads "master" "main" ot (by decide)]
                exact hm
              · exact lookupA_setAssoc_self r.heads "master" ot
      · -- main present
        rcases ho : lookupA r.originRefs "main" with _ | ot
        · have hbe : branch_exists fs p "main" = .ok true :=
            branch_exists_true_of_head fs p "main" r hfs (by simp [hm]) (by decide)
          simp [sync_step, hfs, hbe, repoOpen, checkout, hm, resetToOrigin, ho] at h
        · rw [sync_step_main fs remotes S p r h0 ot hfs hm ho] at h
          injection h with h2
          injection h2 with h3 h4
          refine ⟨{ heads := setAssoc r.heads "main" ot,
                    originRefs := r.originRefs, headRef := "main" }, ?_, ?_⟩
          · rw [← h3]
            exact lookupA_setAssoc_self fs p _
          · refine Or.inl ⟨ot, rfl, ?_, ho⟩
            exact lookupA_setAssoc_self r.heads "main" ot

/-- Synchronizing a path already in a synced state succeeds and preserves
the checked-out tip. -/
theorem sync_step_on_synced (fs : List (String × PathContent))
    (remotes : List (String × RemoteRepo)) (S p : String) (r : LocalRepo)
    (hfs : lookupA fs p = some (.repo r)) (hs : SyncedRepo remotes S r) :
    ∃ fs2 evs r2, sync_step fs remotes S p = .ok (fs2, evs) ∧
      lookupA fs2 p = some (.repo r2) ∧
      lookupA r2.heads r2.headRef = lookupA r.heads r.headRef := by
  rcases hs with ⟨ot, hh, hm, ho⟩ | ⟨ot, hh, hnm, hm, ho⟩ | ⟨re, t, hre, ht, hr⟩
  · refine ⟨_, _, _, sync_step_main fs remotes S p r ot ot hfs hm ho,
      lookupA_setAssoc_self fs p _, ?_⟩
    show lookupA (setAssoc r.heads "main" ot) "main" = lookupA r.heads r.headRef
    rw [lookupA_setAssoc_self r.heads "main" ot, hh, hm]
  · refine ⟨_, _, _, sync_step_master fs remotes S p r ot ot hfs hnm hm ho,
      lookupA_setAssoc_self fs p _, ?_⟩
    show lookupA (setAssoc r.heads "master" ot) "master" = lookupA r.heads r.headRef
    rw [lookupA_setAssoc_self r.heads "master" ot, hh, hm]
  · subst hr
    by_cases hd1 : re.defaultBranch = "main"
    · have hm : lookupA (freshClone re t).heads "main" = some t := by
        simp [freshClone, lookupA, hd1]
      have ho : lookupA (freshClone re t).originRefs "main" = some t := by
        show lookupA re.branches "main" = some t
        rw [← hd1]
        exact ht
      refine ⟨_, _, _, sync_step_main fs remotes S p _ t t hfs hm ho,
        lookupA_setAssoc_self fs p _, ?_⟩
      show lookupA (setAssoc (freshClone re t).heads "main" t) "main" =
        lookupA (freshClone re t).heads (freshClone re t).headRef
      rw [lookupA_setAssoc_self]
      simp [freshClone, lookupA]
    · by_cases hd2 : re.defaultBranch = "master"
      · have hnm : lookupA (freshClone re t).heads "main" = none := by
          simp [freshClone, lookupA, hd2]
        have hm : lookupA (freshClone re t).heads "master" = some t := by
          simp [freshClone, lookupA, hd2]
        have ho : lookupA (freshClone re t).originRefs "master" = some t := by
          show lookupA re.branches "master" = some t
          rw [← hd2]
          exact ht
        refine ⟨_, _, _, sync_step_master fs remotes S p _ t t hfs hnm hm ho,
          lookupA_setAssoc_self fs p _, ?_⟩
        show lookupA (setAssoc (freshClone re t).heads "master" t) "master" =
          lookupA (freshClone re t).heads (freshClone re t).headRef
        rw [lookupA_setAssoc_self]
        simp [freshClone, lookupA]
      · have hnm : lookupA (freshClone re t).heads "main" = none := by
          simp [freshClone, lookupA, hd1]
        have hns : lookupA (freshClone re t).heads "master" = none := by
          simp [freshClone, lookupA, hd2]
        refine ⟨_, _, _, sync_step_reclone fs remotes S p _ re t hfs hnm hns hre ht,
          lookupA_setAssoc_self (removeA fs p) p _, rfl⟩

/-- Shape of any successful `git_temp_clone` call: the returned path is the
deterministic one, the remotes are untouched, and the path holds a synced
working copy whose tip is the reported head tip. -/
theorem git_temp_clone_post (w : World) (S : String) (w1 : World) (p : String)
    (evs : List Event) (h : git_temp_clone w S = .ok (w1, p, evs)) :
    p = tmpPath S ∧ w1.remotes = w.remotes ∧
      ∃ r1, lookupA w1.fs (tmpPath S) = some (.repo r1) ∧
        SyncedRepo w.remotes S r1 ∧
        headTip w1 (tmpPath S) = lookupA r1.heads r1.headRef := by
  rcases hsync : sync_step w.fs w.remotes S (tmpPath S) with e | ⟨fs2, evs'⟩
  · simp [git_temp_clone, hsync] at h
  · rw [git_temp_clone_of_sync w S fs2 evs' hsync] at h
    injection h with h2
    injection h2 with ha hb
    injection hb with hp hevs
    subst hp
    obtain ⟨r1, hlk, hsr⟩ := sync_step_post w.fs w.remotes S (tmpPath S) fs2 evs' hsync
    subst ha
    exact ⟨rfl, rfl, r1, hlk, hsr, by simp [headTip, hlk]⟩

/-- A second call on a synced state succeeds and reproduces the tip. -/
theorem git_temp_clone_again (w1 : World) (S : String) (r1 : LocalRepo)
    (hfs : lookupA w1.fs (tmpPath S) = some (.repo r1))
    (hs : SyncedRepo w1.remotes S r1) :
    ∃ w2 evs2, git_temp_clone w1 S = .ok (w2, tmpPath S, evs2) ∧
      headTip w2 (tmpPath S) = lookupA r1.heads r1.headRef := by
  obtain ⟨fs2, evs2, r2, hsync, hlk, htip⟩ :=
    sync_step_on_synced w1.fs w1.remotes S (tmpPath S) r1 hfs hs
  refine ⟨_, evs2, git_temp_clone_of_sync w1 S fs2 evs2 hsync, ?_⟩
  simpa [headTip, hlk] using htip

theorem stripHash_hash_append (name : String) : stripHash ("#" ++ name) = name := by
  obtain ⟨d⟩ := name
  rfl

theorem stripHash_of_not_hash (s : String) (h : startsWithHash s = false) :
    stripHash s = s := by
  obtain ⟨d⟩ := s
  cases d with
  | nil => rfl
  | cons c cs =>
    unfold stripHash
    split
    next rest heq =>
      exfalso
      injection heq with hc hrest
      subst hc
      simp [startsWithHash] at h
    next => rfl

/-! ### Claim theorems -/

/-- C1 (evidence for the code bug): a successful synchronization against a
remote that has advanced past the locally recorded `origin/main` tracking
ref leaves the checked-out `main` tip at the stale commit 1 while the
remote branch tip is commit 2 — the routine resets to the tracking ref
without fetching, so the local tip does not match the remote branch tip. -/
theorem stale_remote_sync_keeps_old_tip :
    resultPath (git_temp_clone staleWorld "https://example.com/org/repo")
      = some "/tmp/repo" ∧
    (resultWorld (git_temp_clone staleWorld "https://example.com/org/repo")).map
        (fun w => headTip w "/tmp/repo") = some (some 1) ∧
    remoteBranchTip staleWorld "https://example.com/org/repo" "main" = some 2 := by
  decide

/-- C3 (evidence for the code bug): `branch_exists` catches only
`GitCommandError`, but opening an existing non-repository path raises
`InvalidGitRepositoryError` and opening a missing path raises
`NoSuchPathError`; both escape `branch_exists`, and `git_temp_clone`
propagates the error instead of falling back to a full reclone. -/
theorem branch_exists_propagates_inspection_errors :
    branch_exists [("/tmp/x", PathContent.nonRepo)] "/tmp/x" "main"
      = .error .invalidGitRepositoryError ∧
    branch_exists ([] : List (String × PathContent)) "/tmp/x" "main"
      = .error .noSuchPathError ∧
    git_temp_clone nonRepoWorld "https://example.com/org/x"
      = .error .invalidGitRepositoryError := by
  decide

/-- C6: every successful call returns `"/tmp/" ++` the last `/`-separated
segment of the source (e.g. `https://example.com/org/repo` resolves to
`/tmp/repo`), and when that path does not exist the call performs exactly a
full clone into it and returns it. -/
theorem resolved_path_and_fresh_clone :
    (∀ (w : World) (S : String) (res : World × String × List Event),
      git_temp_clone w S = .ok res →
      res.2.1 = "/tmp/" ++ (pySplitSlash S).getLastD "") ∧
    tmpPath "https://example.com/org/repo" = "/tmp/repo" ∧
    (∀ (w : World) (S : String) (re : RemoteRepo) (t : Nat),
      lookupA w.fs (tmpPath S) = none →
      lookupA w.remotes S = some re →
      lookupA re.branches re.defaultBranch = some t →
      ∃ w1, git_temp_clone w S = .ok (w1, tmpPath S, [.cloned S (tmpPath S)]) ∧
        lookupA w1.fs (tmpPath S) = some (.repo (freshClone re t))) := by
  refine ⟨?_, by decide, ?_⟩
  · rintro w S ⟨w1, p, evs⟩ h
    exact (git_temp_clone_post w S w1 p evs h).1
  · intro w S re t hfs hre ht
    have hsync := sync_step_fresh w.fs w.remotes S (tmpPath S) re t hfs hre ht
    refine ⟨_, git_temp_clone_of_sync w S _ _ hsync, ?_⟩
    exact lookupA_setAssoc_self w.fs (tmpPath S) _

/-- Witness for C6 at a concrete input: no local state, source
`https://example.com/org/repo`. -/
theorem resolved_path_and_fresh_clone_witness :
    ∃ w1, git_temp_clone emptyFsWorld "https://example.com/org/repo" =
      .ok (w1, tmpPath "https://example.com/org/repo",
           [.cloned "https://example.com/org/repo"
              (tmpPath "https://example.com/org/repo")]) ∧
      lookupA w1.fs (tmpPath "https://example.com/org/repo") =
        some (.repo (freshClone exampleRemote 2)) :=
  resolved_path_and_fresh_clone.2.2 emptyFsWorld "https://example.com/org/repo"
    exampleRemote 2 (by decide) (by decide) (by decide)

/-- C2: when the local path holds a repository for which `branch_exists`
returns false for both `main` and `master`, the call deletes the path,
clones the source afresh into it, and returns it; the action trace shows
no checkout or reset of any branch. -/
theorem git_temp_clone_recreates_on_unknown_branch_state
    (w : World) (S : String) (r : LocalRepo) (re : RemoteRepo) (t : Nat)
    (hfs : lookupA w.fs (tmpPath S) = some (.repo r))
    (hbm : branch_exists w.fs (tmpPath S) "main" = .ok false)
    (hbs : branch_exists w.fs (tmpPath S) "master" = .ok false)
    (hre : lookupA w.remotes S = some re)
    (ht : lookupA re.branches re.defaultBranch = some t) :
    ∃ w1, git_temp_clone w S = .ok (w1, tmpPath S,
        [.deletedTree (tmpPath S), .cloned S (tmpPath S)]) ∧
      lookupA w1.fs (tmpPath S) = some (.repo (freshClone re t)) := by
  have hmainN : lookupA r.heads "main" = none := by
    obtain ⟨r', hfs', hdec⟩ := branch_exists_ok_inv _ _ _ _ hbm
    rw [hfs] at hfs'
    injection hfs' with h1
    injection h1 with h2
    subst h2
    have hnm := of_decide_eq_false hdec.symm
    rw [mem_refsOf_short r "main" (by decide)] at hnm
    exact Option.not_isSome_iff_eq_none.mp hnm
  have hmasterN : lookupA r.heads "master" = none := by
    obtain ⟨r', hfs', hdec⟩ := branch_exists_ok_inv _ _ _ _ hbs
    rw [hfs] at hfs'
    injection hfs' with h1
    injection h1 with h2
    subst h2
    have hnm := of_decide_eq_false hdec.symm
    rw [mem_refsOf_short r "master" (by decide)] at hnm
    exact Option.not_isSome_iff_eq_none.mp hnm
  have hsync := sync_step_reclone w.fs w.remotes S (tmpPath S) r re t hfs
    hmainN hmasterN hre ht
  exact ⟨_, git_temp_clone_of_sync w S _ _ hsync,
    lookupA_setAssoc_self (removeA w.fs (tmpPath S)) (tmpPath S) _⟩

/-- Witness for C2: local copy has only a `feature-x` branch reference. -/
theorem git_temp_clone_recreates_on_unknown_branch_state_witness :
    ∃ w1, git_temp_clone featureXWorld "https://example.com/org/repo" =
      .ok (w1, tmpPath "https://example.com/org/repo",
        [.deletedTree (tmpPath "https://example.com/org/repo"),
         .cloned "https://example.com/org/repo"
           (tmpPath "https://example.com/org/repo")]) ∧
      lookupA w1.fs (tmpPath "https://example.com/org/repo") =
        some (.repo (freshClone exampleRemote 2)) :=
  git_temp_clone_recreates_on_unknown_branch_state featureXWorld
    "https://example.com/org/repo"
    { heads := [("feature-x", 5)], originRefs := [("feature-x", 5)],
      headRef := "feature-x" }
    exampleRemote 2 (by decide) (by decide) (by decide) (by decide) (by decide)

/-- C5: with the local path present, a `main` reference is always taken —
checkout of `main` followed by a hard reset to `origin/main`, with no clone
and no deletion; `master` is used the same way only when `main` is absent. -/
theorem git_temp_clone_prefers_main_then_master
    (w : World) (S : String) (r : LocalRepo)
    (hfs : lookupA w.fs (tmpPath S) = some (.repo r)) :
    (∀ ot, "main" ∈ refsOf r → lookupA r.originRefs "main" = some ot →
      ∃ w1, git_temp_clone w S = .ok (w1, tmpPath S,
          [.checkedOut (tmpPath S) "main", .hardReset (tmpPath S) "origin/main"]) ∧
        lookupA w1.fs (tmpPath S) =
          some (.repo { heads := setAssoc r.heads "main" ot
                        originRefs := r.originRefs
                        headRef := "main" })) ∧
    (∀ ot, "main" ∉ refsOf r → "master" ∈ refsOf r →
      lookupA r.originRefs "master" = some ot →
      ∃ w1, git_temp_clone w S = .ok (w1, tmpPath S,
          [.checkedOut (tmpPath S) "master",
           .hardReset (tmpPath S) "origin/master"]) ∧
        lookupA w1.fs (tmpPath S) =
          some (.repo { heads := setAssoc r.heads "master" ot
                        originRefs := r.originRefs
                        headRef := "master" })) := by
  constructor
  · intro ot hmem ho
    obtain ⟨h0, hm⟩ := Option.isSome_iff_exists.mp
      ((mem_refsOf_short r "main" (by decide)).mp hmem)
    have hsync := sync_step_main w.fs w.remotes S (tmpPath S) r h0 ot hfs hm ho
    exact ⟨_, git_temp_clone_of_sync w S _ _ hsync,
      lookupA_setAssoc_self w.fs (tmpPath S) _⟩
  · intro ot hnmem hmem ho
    have hnm : lookupA r.heads "main" = none := by
      rw [mem_refsOf_short r "main" (by decide)] at hnmem
      exact Option.not_isSome_iff_eq_none.mp hnmem
    obtain ⟨h0, hm⟩ := Option.isSome_iff_exists.mp
      ((mem_refsOf_short r "master" (by decide)).mp hmem)
    have hsync := sync_step_master w.fs w.remotes S (tmpPath S) r h0 ot hfs hnm hm ho
    exact ⟨_, git_temp_clone_of_sync w S _ _ hsync,
      lookupA_setAssoc_self w.fs (tmpPath S) _⟩

/-- Witness for C5: with both `master` and `main` present, `main` is taken;
with only `master` present, `master` is taken. -/
theorem git_temp_clone_prefers_main_then_master_witness :
    (∃ w1, git_temp_clone bothBranchesWorld "https://example.com/org/repo" =
      .ok (w1, tmpPath "https://example.com/org/repo",
        [.checkedOut (tmpPath "https://example.com/org/repo") "main",
         .hardReset (tmpPath "https://example.com/org/repo") "origin/main"]) ∧
      lookupA w1.fs (tmpPath "https://example.com/org/repo") =
        some (.repo { heads := setAssoc [("master", 3), ("main", 4)] "main" 8
                      originRefs := [("master", 7), ("main", 8)]
                      headRef := "main" })) ∧
    (∃ w1, git_temp_clone masterOnlyWorld "https://example.com/org/repo" =
      .ok (w1, tmpPath "https://example.com/org/repo",
        [.checkedOut (tmpPath "https://example.com/org/repo") "master",
         .hardReset (tmpPath "https://example.com/org/repo") "origin/master"]) ∧
      lookupA w1.fs (tmpPath "https://example.com/org/repo") =
        some (.repo { heads := setAssoc [("master", 3)] "master" 7
                      originRefs := [("master", 7)]
                      headRef := "master" })) :=
  ⟨(git_temp_clone_prefers_main_then_master bothBranchesWorld
      "https://example.com/org/repo"
      { heads := [("master", 3), ("main", 4)],
        originRefs := [("master", 7), ("main", 8)], headRef := "master" }
      (by decide)).1 8 (by decide) (by decide),
   (git_temp_clone_prefers_main_then_master masterOnlyWorld
      "https://example.com/org/repo"
      { heads := [("master", 3)], originRefs := [("master", 7)],
        headRef := "master" }
      (by decide)).2 7 (by decide) (by decide) (by decide)⟩

/-- C7: if a synchronization call succeeds, calling again with the remotes
unchanged succeeds, returns the same path, and leaves the same checked-out
tip as the first call did. -/
theorem git_temp_clone_idempotent (w : World) (S : String) (w1 : World)
    (p : String) (evs : List Event)
    (h : git_temp_clone w S = .ok (w1, p, evs)) :
    ∃ w2 evs2, git_temp_clone w1 S = .ok (w2, p, evs2) ∧
      headTip w2 p = headTip w1 p := by
  obtain ⟨hp, hrem, r1, hlk, hsync, htip⟩ := git_temp_clone_post w S w1 p evs h
  subst hp
  have hs1 : SyncedRepo w1.remotes S r1 := by
    rw [hrem]
    exact hsync
  obtain ⟨w2, evs2, h2, htip2⟩ := git_temp_clone_again w1 S r1 hlk hs1
  refine ⟨w2, evs2, h2, ?_⟩
  rw [htip2, htip]

/-- Witness for C7: the clone produced from `emptyFsWorld` re-synchronizes
to the same tip. -/
theorem git_temp_clone_idempotent_witness :
    ∃ w2 evs2, git_temp_clone clonedWorld "https://example.com/org/repo" =
      .ok (w2, "/tmp/repo", evs2) ∧
      headTip w2 "/tmp/repo" = headTip clonedWorld "/tmp/repo" :=
  git_temp_clone_idempotent emptyFsWorld "https://example.com/org/repo"
    clonedWorld "/tmp/repo"
    [.cloned "https://example.com/org/repo" "/tmp/repo"] (by decide)

/-- C4: when the recorder is active, recording, and its archival would
fail, the call still succeeds with the same path (and trace) as with a
succeeding archival, and the recorder state is left untouched — the
archival failure is never surfaced. -/
theorem archival_failure_not_surfaced (w : World) (S : String) (w0 : World)
    (p : String) (evs : List Event)
    (hex : w.replay.instanceExists = true) (hrec : w.replay.recording = true)
    (hfail : w.replay.archiveFails = true)
    (h : git_temp_clone (withArchiveOutcome w false) S = .ok (w0, p, evs)) :
    ∃ w1, git_temp_clone w S = .ok (w1, p, evs) ∧ w1.replay = w.replay := by
  rcases hsync : sync_step w.fs w.remotes S (tmpPath S) with e | ⟨fs2, evs'⟩
  · exfalso
    have hsync' : sync_step (withArchiveOutcome w false).fs
        (withArchiveOutcome w false).remotes S (tmpPath S) = .error e := hsync
    simp [git_temp_clone, hsync'] at h
  · have hsync' : sync_step (withArchiveOutcome w false).fs
        (withArchiveOutcome w false).remotes S (tmpPath S) = .ok (fs2, evs') := hsync
    rw [git_temp_clone_of_sync (withArchiveOutcome w false) S fs2 evs' hsync'] at h
    injection h with h2
    injection h2 with ha hb
    injection hb with hp hevs
    subst hp
    subst hevs
    refine ⟨_, git_temp_clone_of_sync w S fs2 evs' hsync, ?_⟩
    show (if w.replay.instanceExists && w.replay.recording
          then compress_source w.replay (tmpPath S)
          else w.replay) = w.replay
    rw [hex, hrec]
    simp [compress_source, hfail]

/-- Witness for C4: recorder active and failing over a fresh clone. -/
theorem archival_failure_not_surfaced_witness :
    ∃ w1, git_temp_clone recordingWorld "https://example.com/org/repo" =
      .ok (w1, "/tmp/repo",
           [.cloned "https://example.com/org/repo" "/tmp/repo"]) ∧
      w1.replay = recordingWorld.replay :=
  archival_failure_not_surfaced recordingWorld "https://example.com/org/repo"
    { fs := [("/tmp/repo", .repo (freshClone exampleRemote 2))]
      remotes := [("https://example.com/org/repo", exampleRemote)]
      replay := { instanceExists := true, recording := true,
                  archiveFails := false, archived := ["/tmp/repo"] } }
    "/tmp/repo" [.cloned "https://example.com/org/repo" "/tmp/repo"]
    rfl rfl rfl (by decide)

/-- C8: `send_thread_reply` raises `ValueError` for every channel name and
text when `thread_ts` is `None` or empty, and posts nothing — the client
state comes back unchanged. -/
theorem send_thread_reply_requires_thread_ts (c : SlackClient)
    (channel_name text : String) (thread_ts : Option String)
    (hts : thread_ts = none ∨ thread_ts = some "") :
    ∃ msg, Slack.send_thread_reply c channel_name thread_ts text =
      (c, .error (.valueError msg)) := by
  have hf : pyFalsy thread_ts = true := by
    rcases hts with h | h <;> simp [pyFalsy, h]
  by_cases hch : Slack.check_channel_exists c (stripHash channel_name) = true
  · exact ⟨"thread_ts is required", by simp [Slack.send_thread_reply, hch, hf]⟩
  · exact ⟨"Channel does not exist", by simp [Slack.send_thread_reply, hch]⟩

/-- Witness for C8 at a concrete client and channel, `thread_ts = None`. -/
theorem send_thread_reply_requires_thread_ts_witness :
    ∃ msg, Slack.send_thread_reply demoClient "general" none "hello" =
      (demoClient, .error (.valueError msg)) :=
  send_thread_reply_requires_thread_ts demoClient "general" "hello" none (Or.inl rfl)

/-- C9 (counterexample): `send_message` strips only a single leading `#`;
called with `##general`, the legacy `send_message` passes channel
`#general` to the post call — a name that still starts with `#`. -/
theorem send_message_double_hash_counterexample :
    (SlackLegacy.send_message demoClient "##general" "hi").1.posted =
      [{ channel := "#general", text := "hi", thread_ts := none }] ∧
    startsWithHash "#general" = true := by
  decide

/-- C9 (amended): each `send_message` passes the input channel name with
one leading `#` removed to the post call; for a name that does not itself
start with `#`, calling with `"#" ++ name` and with `name` posts to the
same channel. -/
theorem send_message_strips_single_hash :
    (∀ (c : SlackClient) (name text : String), c.postFails = false →
      (SlackLegacy.send_message c name text).1.posted =
        c.posted ++ [{ channel := stripHash name, text := text,
                       thread_ts := none }]) ∧
    (∀ (c : SlackClient) (name text : String), c.postFails = false →
      Slack.check_channel_exists c name = true →
      (Slack.send_message c name text).1.posted =
        c.posted ++ [{ channel := stripHash name, text := text,
                       thread_ts := none }]) ∧
    (∀ name, startsWithHash name = false →
      stripHash ("#" ++ name) = name ∧ stripHash name = name) := by
  refine ⟨?_, ?_, ?_⟩
  · intro c name text hp
    simp [SlackLegacy.send_message, chat_postMessage, hp]
  · intro c name text hp hch
    simp [Slack.send_message, hch, chat_postMessage, hp]
  · intro name h
    exact ⟨stripHash_hash_append name, stripHash_of_not_hash name h⟩

/-- Witness for C9's amended statement at concrete inputs. -/
theorem send_message_strips_single_hash_witness :
    (SlackLegacy.send_message demoClient "#general" "hi").1.posted =
      demoClient.posted ++ [{ channel := stripHash "#general", text := "hi",
                              thread_ts := none }] ∧
    (stripHash ("#" ++ "general") = "general" ∧ stripHash "general" = "general") :=
  ⟨send_message_strips_single_hash.1 demoClient "#general" "hi" rfl,
   send_message_strips_single_hash.2.2 "general" (by decide)⟩

/-- C10 (counterexample): with the listing mapping `general` to the
empty-string identifier, `_check_channel_exists` returns true (the id is
not `None`), yet `edit_message` takes the `channel not found` early
`return False` branch — Python's `if not channel_id:` also fires on the
falsy empty string, so the branch is reachable even with a consistent
listing. -/
theorem edit_message_not_found_branch_reached :
    Slack.check_channel_exists emptyIdClient "general" = true ∧
    (Slack.edit_message emptyIdClient "general" "123.45" "new").2.2 = true ∧
    (Slack.edit_message emptyIdClient "general" "123.45" "new").2.1 = .ok false := by
  decide

/-- C10 (amended): `_check_channel_exists` returning true does imply the
subsequent `_get_channel_id` yields a non-`None` identifier (both strip a
leading `#` and query the same listing), but the early `return False`
branch tests Python truthiness, not `None`-ness: within one invocation
over a fixed listing it is taken exactly when the listing maps the channel
name to the empty-string identifier, and is unreachable otherwise. -/
theorem edit_message_not_found_iff_empty_id :
    (∀ (c : SlackClient) (n : String),
      Slack.check_channel_exists c n = true →
      (Slack.get_channel_id c n).isSome = true) ∧
    (∀ (c : SlackClient) (channel_name message_ts new_text : String),
      (Slack.edit_message c channel_name message_ts new_text).2.2 = true ↔
        (¬ message_ts = "" ∧
         Slack.get_channel_id c (stripHash channel_name) = some "")) := by
  constructor
  · intro c n h
    exact h
  · intro c channel_name message_ts new_text
    by_cases hch : Slack.check_channel_exists c (stripHash channel_name) = true
    · by_cases hts : message_ts = ""
      · simp [Slack.edit_message, hch, hts]
      · rcases hid : Slack.get_channel_id c (stripHash channel_name) with _ | cid
        · exfalso
          simp [Slack.check_channel_exists, hid] at hch
        · by_cases hcid : cid = ""
          · subst hcid
            simp [Slack.edit_message, hch, hts, hid]
          · simp [Slack.edit_message, hch, hts, hid, hcid]
    · have hne : ¬ Slack.get_channel_id c (stripHash channel_name) = some "" := by
        intro he
        exact hch (by simp [Slack.check_channel_exists, he])
      simp [Slack.edit_message, hch, hne]

/-- Witness for C10's amended statement: the implication at `demoClient`,
and the branch taken at the empty-string-id listing. -/
theorem edit_message_not_found_iff_empty_id_witness :
    (Slack.get_channel_id demoClient "general").isSome = true ∧
    (Slack.edit_message emptyIdClient "general" "123.45" "new").2.2 = true :=
  ⟨edit_message_not_found_iff_empty_id.1 demoClient "general" (by decide),
   (edit_message_not_found_iff_empty_id.2 emptyIdClient "general" "123.45"
      "new").mpr ⟨by decide, by decide⟩⟩

end CommonIntegrations

